import Mathlib

/-!
Verification of the Game-of-Life core of this repository (src/main.rs).

The embedding models the automaton state and the three chained systems
(start_episode, count_neighbors, update_cells) of the Update schedule.
Cells are stored one per coordinate (x, y) with x < W, y < H; the grid is
modelled as the function from coordinates to the alive flag, the
NeighborCounts resource as the function from coordinates to the stored
count.  The source stores counts in u8; counts never exceed 8 (proved
below), so Nat is a faithful model of the stored values.
-/

namespace GameOfLife

/-- Alive flags of the cells, indexed by (x, y). -/
abbrev Grid := Nat → Nat → Bool

/-- The NeighborCounts resource, indexed by (x, y). -/
abbrev Counts := Nat → Nat → Nat

/-- The 8 Moore offsets in the order of the source's double loop
(dx in -1..=1 outer, dy in -1..=1 inner, skipping (0, 0)). -/
def neighborOffsets : List (Int × Int) :=
  [(-1, -1), (-1, 0), (-1, 1), (0, -1), (0, 1), (1, -1), (1, 0), (1, 1)]

/-- The bounds test of count_neighbors:
nx >= 0 && ny >= 0 && nx < GRID_WIDTH && ny < GRID_HEIGHT. -/
def inBounds (W H : Nat) (nx ny : Int) : Bool :=
  decide (0 ≤ nx) && decide (0 ≤ ny) && decide (nx < (W : Int)) && decide (ny < (H : Int))

/-- neighbor_counts.0[u][v] += 1. -/
def bump (u v : Nat) (c : Counts) : Counts :=
  fun a b => if a = u ∧ b = v then c a b + 1 else c a b

/-- The inner double loop of count_neighbors for one alive cell at (x, y):
increment every in-bounds Moore neighbor. -/
def scatterCell (W H x y : Nat) (c : Counts) : Counts :=
  neighborOffsets.foldl
    (fun c d =>
      if inBounds W H ((x : Int) + d.1) ((y : Int) + d.2)
      then bump ((x : Int) + d.1).toNat ((y : Int) + d.2).toNat c
      else c)
    c

/-- neighbor_counts.0.iter_mut().for_each(|row| row.fill(0)):
every stored count becomes 0, whatever was there before. -/
def resetCounts (_c : Counts) : Counts := fun _ _ => 0

/-- The coordinates of all cells spawned by initialize_cells:
x in 0..W outer, y in 0..H inner; exactly one cell per coordinate. -/
def allCoords (W H : Nat) : List (Nat × Nat) :=
  (List.range W).flatMap (fun x => (List.range H).map (fun y => (x, y)))

/-- count_neighbors: reset all counts to 0, then for each alive cell add 1 to
each of its in-bounds Moore neighbors (additive scatter over the cells). -/
def count_neighbors (W H : Nat) (prev : Counts) (g : Grid) : Counts :=
  (allCoords W H).foldl
    (fun c p => if g p.1 p.2 then scatterCell W H p.1 p.2 c else c)
    (resetCounts prev)

/-- The per-cell gather definition written from the spec's words: the number of
alive cells among the 8 grid-adjacent coordinates that lie within grid bounds. -/
def gatherCount (W H : Nat) (g : Grid) (x y : Nat) : Nat :=
  neighborOffsets.countP
    (fun d =>
      inBounds W H ((x : Int) + d.1) ((y : Int) + d.2)
        && g ((x : Int) + d.1).toNat ((y : Int) + d.2).toNat)

/-- The rule of update_cells:
match count { 3 => true, 2 if cell.0 => true, _ => false }. -/
def next_alive (alive : Bool) (count : Nat) : Bool :=
  if count = 3 then true
  else if count = 2 ∧ alive = true then true
  else false

/-- update_cells: early return when cells_updated is set; otherwise rewrite
every cell from its own flag and its neighbor count, then set cells_updated.
Returns the grid together with the flag. -/
def update_cells (cellsUpdated : Bool) (counts : Counts) (g : Grid) : Grid × Bool :=
  if cellsUpdated then (g, cellsUpdated)
  else ((fun x y => next_alive (g x y) (counts x y)), true)

/-- One gate-open update of the grid: count_neighbors then update_cells. -/
def stepGrid (W H : Nat) (g : Grid) : Grid :=
  (update_cells false (count_neighbors W H (fun _ _ => 0) g) g).1

/-- n repeated gate-open updates. -/
def iterSteps (W H : Nat) : Nat → Grid → Grid
  | 0, g => g
  | n + 1, g => iterSteps W H n (stepGrid W H g)

/-- The EpisodeTimer resource in repeating mode.  Time is in the integer units
the source's timer stores internally; period is the refresh interval. -/
structure EpisodeTimer where
  elapsed : Nat
  period : Nat

/-- Timer.tick(delta) followed by just_finished() for a repeating timer: the
accumulator advances; on reaching the period it wraps and reports finished. -/
def timerTick (delta : Nat) (t : EpisodeTimer) : EpisodeTimer × Bool :=
  let e := t.elapsed + delta
  if t.period ≤ e then (⟨e % t.period, t.period⟩, true)
  else (⟨e, t.period⟩, false)

/-- The resources touched by the per-frame pipeline. -/
structure SimState where
  grid : Grid
  counts : Counts
  cellsUpdated : Bool
  timer : EpisodeTimer

/-- start_episode: tick the timer with the frame delta; when it just finished,
clear CellsUpdated (the gate becomes pending). -/
def start_episode (delta : Nat) (s : SimState) : SimState :=
  let tf := timerTick delta s.timer
  { s with timer := tf.1, cellsUpdated := if tf.2 then false else s.cellsUpdated }

/-- One frame of the chained Update schedule:
start_episode, then count_neighbors, then update_cells. -/
def frame (W H delta : Nat) (s : SimState) : SimState :=
  let s1 := start_episode delta s
  let c := count_neighbors W H s1.counts s1.grid
  let gu := update_cells s1.cellsUpdated c s1.grid
  { s1 with counts := c, grid := gu.1, cellsUpdated := gu.2 }

/-- Run the pipeline once per frame over a list of frame deltas. -/
def runFrames (W H : Nat) (deltas : List Nat) (s : SimState) : SimState :=
  deltas.foldl (fun s d => frame W H d s) s

/-- How many of the frames run the rule pass of update_cells (the gate is
pending after start_episode) rather than taking the early return. -/
def appliedCount (W H : Nat) (deltas : List Nat) (s : SimState) : Nat :=
  match deltas with
  | [] => 0
  | d :: ds =>
    (if (start_episode d s).cellsUpdated then 0 else 1)
      + appliedCount W H ds (frame W H d s)

/-- Startup configuration values.  The source fixes them as compile-time
constants; rates are exact rationals here, standing for the float constants. -/
structure Config where
  gridWidth : Nat
  gridHeight : Nat
  spawnRate : Rat
  episodeRefreshRate : Rat

/-- The compiled-in configuration of the source:
GRID_WIDTH = 50, GRID_HEIGHT = 50, SPAWN_RATE = 0.5, EPISODE_REFRESH_RATE = 0.2. -/
def theConfig : Config := ⟨50, 50, 1 / 2, 1 / 5⟩

/-- The failure condition the spec names for invalid configurations. -/
inductive ConfigError where
  | invalidConfiguration

/-- The resources CellsPlugin::build inserts. -/
structure InitResources where
  neighborCounts : Counts
  cellsUpdated : Bool
  timerElapsed : Nat
  timerPeriodSeconds : Rat

/-- CellsPlugin::build: unconditionally inserts NeighborCounts (all rows zero),
CellsUpdated(true) and a fresh repeating EpisodeTimer.  The Except return type
records whether a configuration is ever rejected; the body performs no check,
so the result is always ok. -/
def CellsPlugin_build (c : Config) : Except ConfigError InitResources :=
  .ok ⟨fun _ _ => 0, true, 0, c.episodeRefreshRate⟩

/-- A configuration violating every invariant the spec lists: zero-sized grid,
spawn probability 2 outside [0, 1], non-positive tick period. -/
def badConfig : Config := ⟨0, 0, 2, 0⟩

/-- Vertical blinker on the 5 by 5 grid: alive cells (2,1), (2,2), (2,3). -/
def blinkVert : Grid :=
  fun x y => decide ((x = 2 ∧ y = 1) ∨ (x = 2 ∧ y = 2) ∨ (x = 2 ∧ y = 3))

/-- Horizontal blinker on the 5 by 5 grid: alive cells (1,2), (2,2), (3,2). -/
def blinkHoriz : Grid :=
  fun x y => decide ((x = 1 ∧ y = 2) ∨ (x = 2 ∧ y = 2) ∨ (x = 3 ∧ y = 2))

/-- A state whose gate is Idle, whose counts are all 0, and whose grid has one
alive cell at (0, 0); the timer will not fire on a 0 delta. -/
def sIdle : SimState :=
  ⟨fun x y => decide (x = 0 ∧ y = 0), fun _ _ => 0, true, ⟨0, 10⟩⟩

/-- Does a bump of the cell at (x, y) with offset d land on (a, b) inside the
grid?  This is the per-offset increment condition of the scatter. -/
def hitP (W H x y a b : Nat) : (Int × Int) → Bool :=
  fun d =>
    inBounds W H ((x : Int) + d.1) ((y : Int) + d.2)
      && (decide (a = ((x : Int) + d.1).toNat) && decide (b = ((y : Int) + d.2).toNat))

/-- How many of the 8 offsets of the cell at (x, y) land on (a, b). -/
def hitCount (W H x y a b : Nat) : Nat :=
  neighborOffsets.countP (hitP W H x y a b)

/-- Moore adjacency of distinct coordinates, written over Int so that border
cases need no truncated subtraction. -/
def mooreAdj (x y a b : Nat) : Prop :=
  ¬(x = a ∧ y = b)
    ∧ (x : Int) ≤ (a : Int) + 1 ∧ (a : Int) ≤ (x : Int) + 1
    ∧ (y : Int) ≤ (b : Int) + 1 ∧ (b : Int) ≤ (y : Int) + 1

instance (x y a b : Nat) : Decidable (mooreAdj x y a b) := by
  unfold mooreAdj; infer_instance

theorem bump_apply (u v : Nat) (c : Counts) (a b : Nat) :
    bump u v c a b = if a = u ∧ b = v then c a b + 1 else c a b := rfl

theorem scatter_fold_apply (W H x y : Nat) (l : List (Int × Int)) :
    ∀ (c : Counts) (a b : Nat),
      (l.foldl
        (fun c d =>
          if inBounds W H ((x : Int) + d.1) ((y : Int) + d.2)
          then bump ((x : Int) + d.1).toNat ((y : Int) + d.2).toNat c
          else c)
        c) a b
      = c a b + l.countP (hitP W H x y a b) := by
  induction l with
  | nil => intro c a b; simp
  | cons d ds ih =>
    intro c a b
    rw [List.foldl_cons, ih, List.countP_cons]
    cases hin : inBounds W H ((x : Int) + d.1) ((y : Int) + d.2) with
    | false => simp [hitP, hin]
    | true =>
      by_cases he : a = ((x : Int) + d.1).toNat ∧ b = ((y : Int) + d.2).toNat
      · have h1 : bump ((x : Int) + d.1).toNat ((y : Int) + d.2).toNat c a b
            = c a b + 1 := by rw [bump_apply, if_pos he]
        have h2 : hitP W H x y a b d = true := by
          simp [hitP, hin, he.1, he.2]
        simp [hin, h1, h2]
        omega
      · have h1 : bump ((x : Int) + d.1).toNat ((y : Int) + d.2).toNat c a b
            = c a b := by rw [bump_apply, if_neg he]
        have h2 : hitP W H x y a b d = false := by
          simp only [hitP, hin, Bool.true_and, Bool.and_eq_false_iff,
            decide_eq_false_iff_not]
          by_cases h : a = ((x : Int) + d.1).toNat
          · exact Or.inr (fun hb => he ⟨h, hb⟩)
          · exact Or.inl h
        simp [hin, h1, h2]

theorem scatterCell_apply (W H x y : Nat) (c : Counts) (a b : Nat) :
    scatterCell W H x y c a b = c a b + hitCount W H x y a b :=
  scatter_fold_apply W H x y neighborOffsets c a b

theorem cells_fold_apply (W H : Nat) (g : Grid) (l : List (Nat × Nat)) :
    ∀ (c : Counts) (a b : Nat),
      (l.foldl (fun c p => if g p.1 p.2 then scatterCell W H p.1 p.2 c else c) c) a b
      = c a b + (l.map (fun p => if g p.1 p.2 then hitCount W H p.1 p.2 a b else 0)).sum := by
  induction l with
  | nil => intro c a b; simp
  | cons q qs ih =>
    intro c a b
    rw [List.foldl_cons, ih, List.map_cons, List.sum_cons]
    by_cases hg : g q.1 q.2
    · simp only [if_pos hg, scatterCell_apply]
      omega
    · simp [hg]

theorem count_neighbors_apply (W H : Nat) (prev : Counts) (g : Grid) (a b : Nat) :
    count_neighbors W H prev g a b
      = ((allCoords W H).map
          (fun p => if g p.1 p.2 then hitCount W H p.1 p.2 a b else 0)).sum := by
  have h := cells_fold_apply W H g (allCoords W H) (resetCounts prev) a b
  simpa [count_neighbors, resetCounts] using h

theorem sum_range_list (f : Nat → Nat) (n : Nat) :
    ((List.range n).map f).sum = ∑ i ∈ Finset.range n, f i := by
  induction n with
  | zero => simp
  | succ n ih => rw [List.range_succ]; simp [ih, Finset.sum_range_succ]

theorem sum_allCoords (W H : Nat) (f : Nat × Nat → Nat) :
    ((allCoords W H).map f).sum
      = ∑ x ∈ Finset.range W, ∑ y ∈ Finset.range H, f (x, y) := by
  unfold allCoords
  induction W with
  | zero => simp
  | succ W ih =>
    rw [List.range_succ, Finset.sum_range_succ, ← ih]
    rw [List.flatMap_append, List.map_append, List.sum_append]
    simp [List.map_map, Function.comp_def, sum_range_list]

theorem countP_eq_of_not_mem {α : Type} [DecidableEq α] {t : α} {l : List α}
    (h : t ∉ l) : l.countP (fun d => decide (d = t)) = 0 := by
  rw [List.countP_eq_zero]
  intro d hd
  simp only [decide_eq_true_eq]
  intro hdt
  exact h (hdt ▸ hd)

theorem countP_eq_of_nodup_mem {α : Type} [DecidableEq α] {t : α} {l : List α}
    (hnd : l.Nodup) (hm : t ∈ l) : l.countP (fun d => decide (d = t)) = 1 := by
  induction l with
  | nil => cases hm
  | cons d ds ih =>
    rw [List.countP_cons]
    rcases List.mem_cons.mp hm with h | h
    · subst h
      rw [countP_eq_of_not_mem (List.nodup_cons.mp hnd).1]
      simp
    · have : ¬(d = t) := fun hdt => (List.nodup_cons.mp hnd).1 (hdt ▸ h)
      rw [ih (List.nodup_cons.mp hnd).2 h]
      simp [this]

theorem hitCount_eq_adj (W H x y a b : Nat) (ha : a < W) (hb : b < H) :
    hitCount W H x y a b = if mooreAdj x y a b then 1 else 0 := by
  have hcount : hitCount W H x y a b
      = neighborOffsets.countP (fun d => decide (d = ((a : Int) - x, (b : Int) - y))) := by
    apply List.countP_congr
    intro d _
    simp only [hitP, inBounds, Bool.and_eq_true, decide_eq_true_eq, Prod.ext_iff]
    omega
  rw [hcount]
  by_cases hadj : mooreAdj x y a b
  · rw [if_pos hadj]
    apply countP_eq_of_nodup_mem (by decide)
    unfold mooreAdj at hadj
    simp only [neighborOffsets, List.mem_cons, List.not_mem_nil, or_false,
      Prod.ext_iff]
    omega
  · rw [if_neg hadj]
    apply countP_eq_of_not_mem
    unfold mooreAdj at hadj
    simp only [neighborOffsets, List.mem_cons, List.not_mem_nil, or_false,
      Prod.ext_iff]
    omega

theorem count_neighbors_card (W H : Nat) (prev : Counts) (g : Grid) (a b : Nat)
    (ha : a < W) (hb : b < H) :
    count_neighbors W H prev g a b
      = ((Finset.range W ×ˢ Finset.range H).filter
          (fun p => g p.1 p.2 = true ∧ mooreAdj p.1 p.2 a b)).card := by
  rw [count_neighbors_apply]
  have h1 : ((allCoords W H).map
      (fun p => if g p.1 p.2 then hitCount W H p.1 p.2 a b else 0))
      = ((allCoords W H).map
        (fun p => if g p.1 p.2 = true ∧ mooreAdj p.1 p.2 a b then 1 else 0)) := by
    apply List.map_congr_left
    intro p _
    by_cases hg : g p.1 p.2
    · rw [if_pos hg, hitCount_eq_adj W H p.1 p.2 a b ha hb]
      by_cases hm : mooreAdj p.1 p.2 a b
      · rw [if_pos hm, if_pos ⟨hg, hm⟩]
      · rw [if_neg hm, if_neg (fun h => hm h.2)]
    · rw [if_neg hg, if_neg (fun h => hg h.1)]
  rw [h1, sum_allCoords, ← Finset.sum_product', Finset.sum_boole]
  simp

theorem gatherCount_card (W H : Nat) (g : Grid) (a b : Nat) :
    gatherCount W H g a b
      = ((neighborOffsets.filter
          (fun d =>
            inBounds W H ((a : Int) + d.1) ((b : Int) + d.2)
              && g ((a : Int) + d.1).toNat ((b : Int) + d.2).toNat)).toFinset).card := by
  rw [gatherCount, List.countP_eq_length_filter, List.toFinset_card_of_nodup]
  exact List.Nodup.filter _ (by decide)

theorem scatter_eq_gather (W H : Nat) (prev : Counts) (g : Grid) (a b : Nat)
    (ha : a < W) (hb : b < H) :
    count_neighbors W H prev g a b = gatherCount W H g a b := by
  rw [count_neighbors_card W H prev g a b ha hb, gatherCount_card]
  refine (Finset.card_bij
    (fun d _ => (((a : Int) + d.1).toNat, ((b : Int) + d.2).toNat)) ?_ ?_ ?_).symm
  · intro d hd
    simp only [List.mem_toFinset, List.mem_filter, Bool.and_eq_true, inBounds,
      decide_eq_true_eq, and_assoc] at hd
    obtain ⟨hmem, hx0, hy0, hxW, hyH, hgd⟩ := hd
    simp only [Finset.mem_filter, Finset.mem_product, Finset.mem_range]
    refine ⟨⟨by omega, by omega⟩, hgd, ?_⟩
    have hoff : (d.1 = -1 ∧ d.2 = -1) ∨ (d.1 = -1 ∧ d.2 = 0) ∨ (d.1 = -1 ∧ d.2 = 1)
        ∨ (d.1 = 0 ∧ d.2 = -1) ∨ (d.1 = 0 ∧ d.2 = 1) ∨ (d.1 = 1 ∧ d.2 = -1)
        ∨ (d.1 = 1 ∧ d.2 = 0) ∨ (d.1 = 1 ∧ d.2 = 1) := by
      simpa [neighborOffsets, Prod.ext_iff] using hmem
    unfold mooreAdj
    omega
  · intro d1 h1 d2 h2 heq
    simp only [List.mem_toFinset, List.mem_filter, Bool.and_eq_true, inBounds,
      decide_eq_true_eq, and_assoc] at h1 h2
    rw [Prod.mk.injEq] at heq
    rw [Prod.ext_iff]
    obtain ⟨-, hx1, hy1, -, -, -⟩ := h1
    obtain ⟨-, hx2, hy2, -, -, -⟩ := h2
    omega
  · intro q hq
    simp only [Finset.mem_filter, Finset.mem_product, Finset.mem_range] at hq
    obtain ⟨⟨hqW, hqH⟩, hgq, hadj⟩ := hq
    unfold mooreAdj at hadj
    have e1 : ((a : Int) + ((q.1 : Int) - a)).toNat = q.1 := by omega
    have e2 : ((b : Int) + ((q.2 : Int) - b)).toNat = q.2 := by omega
    refine ⟨((q.1 : Int) - a, (q.2 : Int) - b), ?_, ?_⟩
    · simp only [List.mem_toFinset, List.mem_filter, Bool.and_eq_true, inBounds,
        decide_eq_true_eq, and_assoc]
      refine ⟨?_, by omega, by omega, by omega, by omega, ?_⟩
      · simp only [neighborOffsets, List.mem_cons, List.not_mem_nil, or_false,
          Prod.ext_iff]
        omega
      · rw [e1, e2]
        exact hgq
    · exact Prod.ext e1 e2

theorem count_neighbors_dead (W H : Nat) (prev : Counts) (g : Grid)
    (hg : ∀ a b, g a b = false) (a b : Nat) :
    count_neighbors W H prev g a b = 0 := by
  rw [count_neighbors_apply]
  apply List.sum_eq_zero
  intro n hn
  rw [List.mem_map] at hn
  obtain ⟨p, -, hp⟩ := hn
  rw [← hp, hg p.1 p.2]
  simp

theorem stepGrid_dead (W H : Nat) (g : Grid) (hg : ∀ a b, g a b = false)
    (a b : Nat) : stepGrid W H g a b = false := by
  show next_alive (g a b) (count_neighbors W H (fun _ _ => 0) g a b) = false
  rw [hg, count_neighbors_dead W H (fun _ _ => 0) g hg a b]
  rfl

/-- Claim C1: one rule-evaluation pass (update_cells with the gate pending)
sets each cell's next alive flag from its current flag and its neighbor
count: alive exactly when the count is 3, or the count is 2 and the cell is
currently alive; false in every other case, uniformly for all cells. -/
theorem claim1_rule_evaluator (c : Counts) (g : Grid) (x y : Nat) :
    (update_cells false c g).1 x y = true
      ↔ (c x y = 3 ∨ (c x y = 2 ∧ g x y = true)) := by
  show next_alive (g x y) (c x y) = true ↔ _
  unfold next_alive
  by_cases h3 : c x y = 3
  · simp [h3]
  · by_cases h2 : c x y = 2
    · by_cases hg : g x y = true <;> simp [h3, h2, hg]
    · simp [h3, h2]

/-- Claim C2: after one full run of count_neighbors, every in-bounds
coordinate holds exactly the number of alive cells among its in-bounds Moore
neighbors; off-grid neighbors contribute nothing, every count is at most 8,
and a cell with fewer than 8 in-bounds neighbors stays strictly below 8. -/
theorem claim2_neighbor_counts_correct (W H : Nat) (prev : Counts) (g : Grid)
    (x y : Nat) (hx : x < W) (hy : y < H) :
    count_neighbors W H prev g x y = gatherCount W H g x y
    ∧ count_neighbors W H prev g x y ≤ 8
    ∧ (neighborOffsets.countP
        (fun d => inBounds W H ((x : Int) + d.1) ((y : Int) + d.2)) < 8 →
        count_neighbors W H prev g x y < 8) := by
  have heq := scatter_eq_gather W H prev g x y hx hy
  have hmono : gatherCount W H g x y
      ≤ neighborOffsets.countP
          (fun d => inBounds W H ((x : Int) + d.1) ((y : Int) + d.2)) := by
    apply List.countP_mono_left
    intro d _ h
    simp only [Bool.and_eq_true] at h
    exact h.1
  have hlen : neighborOffsets.countP
      (fun d => inBounds W H ((x : Int) + d.1) ((y : Int) + d.2))
      ≤ neighborOffsets.length := List.countP_le_length _
  have hlen8 : neighborOffsets.length = 8 := rfl
  refine ⟨heq, ?_, ?_⟩
  · rw [heq]; omega
  · intro hlt
    rw [heq]; omega

/-- Claim C3: the additive scatter of count_neighbors (reset all counts, then
for each alive cell increment its in-bounds Moore neighbors) produces the
same NeighborCounts as the per-cell 8-neighbor gather definition. -/
theorem claim3_scatter_refines_gather (W H : Nat) (prev : Counts) (g : Grid)
    (x y : Nat) (hx : x < W) (hy : y < H) :
    count_neighbors W H prev g x y = gatherCount W H g x y :=
  scatter_eq_gather W H prev g x y hx hy

/-- Claim C5: a fully dead grid stays fully dead after any number of update
passes; no cell is ever spontaneously born. -/
theorem claim5_dead_grid_stays_dead (W H n : Nat) (g : Grid)
    (hg : ∀ a b, g a b = false) (x y : Nat) :
    iterSteps W H n g x y = false := by
  induction n generalizing g with
  | zero => exact hg x y
  | succ n ih => exact ih (stepGrid W H g) (stepGrid_dead W H g hg)

/-- Claim C7: neighbor counting is idempotent on an unchanged grid: a second
run of count_neighbors, fed the counts the first run produced, returns
exactly the counts of the first run. -/
theorem claim7_count_idempotent (W H : Nat) (prev : Counts) (g : Grid)
    (x y : Nat) :
    count_neighbors W H (count_neighbors W H prev g) g x y
      = count_neighbors W H prev g x y := rfl

theorem start_episode_cellsUpdated (d : Nat) (s : SimState) :
    (start_episode d s).cellsUpdated
      = if s.timer.period ≤ s.timer.elapsed + d then false else s.cellsUpdated := by
  unfold start_episode timerTick
  by_cases h : s.timer.period ≤ s.timer.elapsed + d <;> simp [h]

theorem frame_fields (W H d : Nat) (s : SimState) :
    frame W H d s
      = if s.timer.period ≤ s.timer.elapsed + d
        then ⟨stepGrid W H s.grid, count_neighbors W H s.counts s.grid, true,
              ⟨(s.timer.elapsed + d) % s.timer.period, s.timer.period⟩⟩
        else if s.cellsUpdated = true
          then ⟨s.grid, count_neighbors W H s.counts s.grid, true,
                ⟨s.timer.elapsed + d, s.timer.period⟩⟩
          else ⟨stepGrid W H s.grid, count_neighbors W H s.counts s.grid, true,
                ⟨s.timer.elapsed + d, s.timer.period⟩⟩ := by
  by_cases hf : s.timer.period ≤ s.timer.elapsed + d
  · rw [if_pos hf]
    unfold frame start_episode timerTick update_cells stepGrid
    simp [hf]
    rfl
  · rw [if_neg hf]
    by_cases hu : s.cellsUpdated = true
    · rw [if_pos hu]
      unfold frame start_episode timerTick update_cells
      simp [hf, hu]
    · rw [if_neg hu]
      unfold frame start_episode timerTick update_cells stepGrid
      simp [hf, hu]
      rfl

theorem no_fire_run (W H : Nat) (deltas : List Nat) :
    ∀ s : SimState, s.cellsUpdated = true →
      s.timer.elapsed + deltas.sum < s.timer.period →
      (runFrames W H deltas s).grid = s.grid
      ∧ (runFrames W H deltas s).cellsUpdated = true
      ∧ (runFrames W H deltas s).timer.elapsed = s.timer.elapsed + deltas.sum
      ∧ (runFrames W H deltas s).timer.period = s.timer.period
      ∧ appliedCount W H deltas s = 0 := by
  induction deltas with
  | nil =>
    intro s hu h
    simp [runFrames, appliedCount, hu]
  | cons d ds ih =>
    intro s hu h
    rw [List.sum_cons] at h
    have hnf : ¬s.timer.period ≤ s.timer.elapsed + d := by omega
    have hframe : frame W H d s
        = ⟨s.grid, count_neighbors W H s.counts s.grid, true,
            ⟨s.timer.elapsed + d, s.timer.period⟩⟩ := by
      rw [frame_fields, if_neg hnf, if_pos hu]
    have hse : (start_episode d s).cellsUpdated = true := by
      rw [start_episode_cellsUpdated, if_neg hnf]
      exact hu
    have hrun : runFrames W H (d :: ds) s = runFrames W H ds (frame W H d s) := rfl
    have happ : appliedCount W H (d :: ds) s
        = (if (start_episode d s).cellsUpdated then 0 else 1)
          + appliedCount W H ds (frame W H d s) := rfl
    have htail := ih ⟨s.grid, count_neighbors W H s.counts s.grid, true,
        ⟨s.timer.elapsed + d, s.timer.period⟩⟩ rfl (by simp; omega)
    rw [hrun, hframe, happ, hframe, hse]
    simp only [if_pos]
    refine ⟨htail.1, htail.2.1, ?_, ?_, ?_⟩
    · rw [htail.2.2.1]
      simp
      omega
    · exact htail.2.2.2.1
    · rw [htail.2.2.2.2]

theorem applied_once_of_single_fire (W H p : Nat) (g : Grid) (deltas : List Nat) :
    ∀ (c : Counts) (e : Nat), e < p → p ≤ e + deltas.sum → e + deltas.sum < 2 * p →
      appliedCount W H deltas ⟨g, c, true, ⟨e, p⟩⟩ = 1
      ∧ (runFrames W H deltas ⟨g, c, true, ⟨e, p⟩⟩).grid = stepGrid W H g := by
  induction deltas with
  | nil =>
    intro c e he hlo hhi
    exfalso
    rw [List.sum_nil] at hlo
    omega
  | cons d ds ih =>
    intro c e he hlo hhi
    rw [List.sum_cons] at hlo hhi
    have happ : appliedCount W H (d :: ds) ⟨g, c, true, ⟨e, p⟩⟩
        = (if (start_episode d ⟨g, c, true, ⟨e, p⟩⟩).cellsUpdated then 0 else 1)
          + appliedCount W H ds (frame W H d ⟨g, c, true, ⟨e, p⟩⟩) := rfl
    have hrun : runFrames W H (d :: ds) ⟨g, c, true, ⟨e, p⟩⟩
        = runFrames W H ds (frame W H d ⟨g, c, true, ⟨e, p⟩⟩) := rfl
    by_cases hf : p ≤ e + d
    · have hmod : (e + d) % p = e + d - p := by
        rw [Nat.mod_eq_sub_mod hf, Nat.mod_eq_of_lt (by omega)]
      have hfr : frame W H d ⟨g, c, true, ⟨e, p⟩⟩
          = ⟨stepGrid W H g, count_neighbors W H c g, true, ⟨e + d - p, p⟩⟩ := by
        rw [frame_fields, if_pos hf, hmod]
      have hgate : (start_episode d ⟨g, c, true, ⟨e, p⟩⟩).cellsUpdated = false := by
        rw [start_episode_cellsUpdated, if_pos hf]
      have htail := no_fire_run W H ds
        ⟨stepGrid W H g, count_neighbors W H c g, true, ⟨e + d - p, p⟩⟩ rfl
        (by simp only []; omega)
      constructor
      · rw [happ, hgate, hfr]
        simp only [Bool.false_eq_true, if_false]
        rw [htail.2.2.2.2]
      · rw [hrun, hfr]
        exact htail.1
    · have hfr : frame W H d ⟨g, c, true, ⟨e, p⟩⟩
          = ⟨g, count_neighbors W H c g, true, ⟨e + d, p⟩⟩ := by
        rw [frame_fields, if_neg hf, if_pos rfl]
      have hgate : (start_episode d ⟨g, c, true, ⟨e, p⟩⟩).cellsUpdated = true := by
        rw [start_episode_cellsUpdated, if_neg hf]
      have hih := ih (count_neighbors W H c g) (e + d) (by omega) (by omega) (by omega)
      constructor
      · rw [happ, hgate, hfr]
        simp only [if_true]
        rw [hih.1]
      · rw [hrun, hfr]
        exact hih.2

theorem applied_M_periods (W H p M : Nat) :
    ∀ (g : Grid) (c : Counts),
      appliedCount W H (List.replicate M p) ⟨g, c, true, ⟨0, p⟩⟩ = M
      ∧ (runFrames W H (List.replicate M p) ⟨g, c, true, ⟨0, p⟩⟩).grid
          = iterSteps W H M g := by
  induction M with
  | zero => intro g c; exact ⟨rfl, rfl⟩
  | succ M ih =>
    intro g c
    rw [List.replicate_succ]
    have hf : p ≤ 0 + p := by omega
    have hfr : frame W H p ⟨g, c, true, ⟨0, p⟩⟩
        = ⟨stepGrid W H g, count_neighbors W H c g, true, ⟨0, p⟩⟩ := by
      rw [frame_fields, if_pos hf]
      simp [Nat.mod_self]
    have hgate : (start_episode p ⟨g, c, true, ⟨0, p⟩⟩).cellsUpdated = false := by
      rw [start_episode_cellsUpdated, if_pos hf]
    have happ : appliedCount W H (p :: List.replicate M p) ⟨g, c, true, ⟨0, p⟩⟩
        = (if (start_episode p ⟨g, c, true, ⟨0, p⟩⟩).cellsUpdated then 0 else 1)
          + appliedCount W H (List.replicate M p)
              (frame W H p ⟨g, c, true, ⟨0, p⟩⟩) := rfl
    have hrun : runFrames W H (p :: List.replicate M p) ⟨g, c, true, ⟨0, p⟩⟩
        = runFrames W H (List.replicate M p) (frame W H p ⟨g, c, true, ⟨0, p⟩⟩) := rfl
    have hih := ih (stepGrid W H g) (count_neighbors W H c g)
    constructor
    · rw [happ, hgate, hfr]
      simp only [Bool.false_eq_true, if_false]
      rw [hih.1]
      omega
    · rw [hrun, hfr]
      exact hih.2

/-- Claim C4: starting from the gate Idle, invoking the per-frame pipeline any
number of times while the timer completes exactly one period applies the rule
to the grid exactly once, and invoking it once per period over M consecutive
periods applies the rule exactly M times. -/
theorem claim4_update_gate (W H p e M : Nat) (g : Grid) (c : Counts)
    (deltas : List Nat) (he : e < p) (hlo : p ≤ e + deltas.sum)
    (hhi : e + deltas.sum < 2 * p) :
    (appliedCount W H deltas ⟨g, c, true, ⟨e, p⟩⟩ = 1
      ∧ (runFrames W H deltas ⟨g, c, true, ⟨e, p⟩⟩).grid = stepGrid W H g)
    ∧ (appliedCount W H (List.replicate M p) ⟨g, c, true, ⟨0, p⟩⟩ = M
      ∧ (runFrames W H (List.replicate M p) ⟨g, c, true, ⟨0, p⟩⟩).grid
          = iterSteps W H M g) :=
  ⟨applied_once_of_single_fire W H p g deltas c e he hlo hhi,
   applied_M_periods W H p M g c⟩

/-- Claim C6: on the 5 by 5 grid, the vertical blinker (2,1),(2,2),(2,3)
becomes the horizontal blinker (1,2),(2,2),(3,2) after one full update pass,
and returns to the vertical blinker after a second pass. -/
theorem claim6_blinker :
    (∀ x, x < 5 → ∀ y, y < 5 → stepGrid 5 5 blinkVert x y = blinkHoriz x y)
    ∧ (∀ x, x < 5 → ∀ y, y < 5 →
        stepGrid 5 5 (stepGrid 5 5 blinkVert) x y = blinkVert x y) := by decide

/-- Witness for claim C6 at the concrete cell (1, 2). -/
theorem claim6_witness :
    1 < 5 ∧ 2 < 5 ∧ stepGrid 5 5 blinkVert 1 2 = blinkHoriz 1 2 :=
  ⟨by decide, by decide, claim6_blinker.1 1 (by decide) 2 (by decide)⟩

/-- Witness for claim C2 at the concrete cell (2, 2) of the vertical blinker. -/
theorem claim2_witness :
    2 < 5 ∧ 2 < 5
    ∧ (count_neighbors 5 5 (fun _ _ => 0) blinkVert 2 2
          = gatherCount 5 5 blinkVert 2 2
      ∧ count_neighbors 5 5 (fun _ _ => 0) blinkVert 2 2 ≤ 8
      ∧ (neighborOffsets.countP
          (fun d => inBounds 5 5 (((2 : Nat) : Int) + d.1) (((2 : Nat) : Int) + d.2)) < 8 →
          count_neighbors 5 5 (fun _ _ => 0) blinkVert 2 2 < 8)) :=
  ⟨by decide, by decide,
    claim2_neighbor_counts_correct 5 5 (fun _ _ => 0) blinkVert 2 2
      (by decide) (by decide)⟩

/-- Witness for claim C3 at the concrete cell (1, 2) of the vertical blinker. -/
theorem claim3_witness :
    1 < 5 ∧ 2 < 5
    ∧ count_neighbors 5 5 (fun _ _ => 0) blinkVert 1 2
        = gatherCount 5 5 blinkVert 1 2 :=
  ⟨by decide, by decide,
    claim3_scatter_refines_gather 5 5 (fun _ _ => 0) blinkVert 1 2
      (by decide) (by decide)⟩

/-- Witness for claim C5 on the all-dead grid. -/
theorem claim5_witness :
    (∀ a b : Nat, (fun _ _ => false : Grid) a b = false)
    ∧ iterSteps 3 3 2 (fun _ _ => false) 1 1 = false :=
  ⟨fun _ _ => rfl,
    claim5_dead_grid_stays_dead 3 3 2 (fun _ _ => false) (fun _ _ => rfl) 1 1⟩

/-- Witness for claim C4 with period 2, three frames of delta 1 spanning one
period, and two whole periods. -/
theorem claim4_witness :
    (0 : Nat) < 2 ∧ 2 ≤ 0 + ([1, 1, 1] : List Nat).sum
    ∧ 0 + ([1, 1, 1] : List Nat).sum < 2 * 2
    ∧ ((appliedCount 5 5 [1, 1, 1] ⟨blinkVert, fun _ _ => 0, true, ⟨0, 2⟩⟩ = 1
        ∧ (runFrames 5 5 [1, 1, 1] ⟨blinkVert, fun _ _ => 0, true, ⟨0, 2⟩⟩).grid
            = stepGrid 5 5 blinkVert)
      ∧ (appliedCount 5 5 (List.replicate 2 2)
            ⟨blinkVert, fun _ _ => 0, true, ⟨0, 2⟩⟩ = 2
        ∧ (runFrames 5 5 (List.replicate 2 2)
            ⟨blinkVert, fun _ _ => 0, true, ⟨0, 2⟩⟩).grid
            = iterSteps 5 5 2 blinkVert)) :=
  ⟨by decide, by decide, by decide,
    claim4_update_gate 5 5 2 0 2 blinkVert (fun _ _ => 0) [1, 1, 1]
      (by decide) (by decide) (by decide)⟩

/-- Claim C8 counterexample: with the gate Idle and the timer not firing, one
pipeline invocation still changes the NeighborCounts resource, because
count_neighbors carries no gate check; the invocation is not a no-op for the
whole state and the Neighbor Counter does not run only when pending. -/
theorem claim8_counterexample :
    (frame 5 5 0 sIdle).counts 1 1 ≠ sIdle.counts 1 1 := by decide

/-- Claim C8 (amended): while the gate is Idle and the timer does not fire,
the Rule Evaluator is skipped by the early return, so the grid and the gate
are unchanged; the Neighbor Counter, however, runs unconditionally and
recomputes NeighborCounts from the unchanged grid. -/
theorem claim8_idle_skips_rule_only (W H d : Nat) (s : SimState)
    (hu : s.cellsUpdated = true)
    (hnf : s.timer.elapsed + d < s.timer.period) :
    (frame W H d s).grid = s.grid
    ∧ (frame W H d s).cellsUpdated = true
    ∧ (frame W H d s).counts = count_neighbors W H s.counts s.grid := by
  rw [frame_fields, if_neg (by omega), if_pos hu]
  exact ⟨rfl, rfl, rfl⟩

/-- Witness for the amended claim C8 on the concrete Idle state. -/
theorem claim8_witness :
    sIdle.cellsUpdated = true
    ∧ sIdle.timer.elapsed + 3 < sIdle.timer.period
    ∧ ((frame 5 5 3 sIdle).grid = sIdle.grid
      ∧ (frame 5 5 3 sIdle).cellsUpdated = true
      ∧ (frame 5 5 3 sIdle).counts = count_neighbors 5 5 sIdle.counts sIdle.grid) :=
  ⟨rfl, by decide, claim8_idle_skips_rule_only 5 5 3 sIdle rfl (by decide)⟩

/-- Claim C9 counterexample: the startup construction accepts a configuration
that violates every invariant the spec lists (zero-sized grid, spawn
probability 2, non-positive period); it does not fail with
InvalidConfiguration. -/
theorem claim9_counterexample :
    CellsPlugin_build badConfig ≠ Except.error ConfigError.invalidConfiguration := by
  intro h
  exact Except.noConfusion h

/-- Claim C9 (amended): startup construction performs no validation at all:
CellsPlugin::build unconditionally inserts the initial resources for every
configuration, valid or not, and no per-tick validation exists either; the
compiled-in constants happen to satisfy all the invariants the spec lists. -/
theorem claim9_build_never_rejects (c : Config) :
    CellsPlugin_build c
        = Except.ok ⟨fun _ _ => 0, true, 0, c.episodeRefreshRate⟩
    ∧ (0 < theConfig.episodeRefreshRate ∧ 0 < theConfig.gridWidth
      ∧ 0 < theConfig.gridHeight ∧ 0 ≤ theConfig.spawnRate
      ∧ theConfig.spawnRate ≤ 1) :=
  ⟨rfl, by norm_num [theConfig], by norm_num [theConfig],
    by norm_num [theConfig], by norm_num [theConfig], by norm_num [theConfig]⟩

/-- Claim C10: the gate starts Idle (CellsUpdated is inserted as true), and
from the initial state no rule pass changes any cell before the first timer
period elapses: the initial grid persists unchanged. -/
theorem claim10_initial_idle (W H p : Nat) (g : Grid) (c : Counts)
    (deltas : List Nat) (h : deltas.sum < p) :
    (∀ r, CellsPlugin_build theConfig = Except.ok r → r.cellsUpdated = true)
    ∧ (runFrames W H deltas ⟨g, c, true, ⟨0, p⟩⟩).grid = g
    ∧ appliedCount W H deltas ⟨g, c, true, ⟨0, p⟩⟩ = 0 := by
  have hrun := no_fire_run W H deltas ⟨g, c, true, ⟨0, p⟩⟩ rfl
    (by simp only []; omega)
  refine ⟨?_, hrun.1, hrun.2.2.2.2⟩
  intro r hr
  injection hr with hr
  rw [← hr]

/-- Witness for claim C10 with period 4 and two frames summing below it. -/
theorem claim10_witness :
    ([1, 2] : List Nat).sum < 4
    ∧ ((∀ r, CellsPlugin_build theConfig = Except.ok r → r.cellsUpdated = true)
      ∧ (runFrames 5 5 [1, 2] ⟨blinkVert, fun _ _ => 0, true, ⟨0, 4⟩⟩).grid
          = blinkVert
      ∧ appliedCount 5 5 [1, 2] ⟨blinkVert, fun _ _ => 0, true, ⟨0, 4⟩⟩ = 0) :=
  ⟨by decide,
    claim10_initial_idle 5 5 4 blinkVert (fun _ _ => 0) [1, 2] (by decide)⟩

end GameOfLife
